import Mathlib

/-!
Verification of the PoliTerm orchestrator core (proto/poli_orchestrator_v3.py).

The development shallowly embeds the protocol engine of the orchestrator:
the block codec (`find_blocks`), the two polling waits
(`wait_for_new_block`, `wait_for_executor_result`), the continuous
dialogue loop (`route_continuous`) and the monitor loop (`monitor_planner`,
embedded as `monitorStep`/`monitorRun`).  Channel I/O (tmux capture and
send-keys) is modelled by explicit inputs: each poll iteration receives the
regex match results found in the captured transcript, and each written prompt is
counted in the state.  Wall-clock readings are rationals, one reading per
loop iteration.  The process-wide INTERRUPTED flag stays false in the
modelled runs (asynchronous signal delivery is outside the embedding).
-/

namespace PoliV3

/-- Parsed JSON metadata of one block.  Only the fields the orchestrator
reads are modelled: `meta.get("to", "")`, `meta.get("type", "")` and
`str(meta.get("id", ""))`; a missing field is `none`.  The `id` field holds
the result of `str(...)`, so a JSON number id appears as its (non-empty)
decimal string and a missing id as `none`. -/
structure BlockMeta where
  toField : Option String
  typeField : Option String
  idField : Option String
deriving DecidableEq

/-- One regex match of `BLOCK_RE` over the captured buffer: `meta` is the
outcome of `json.loads` on the metadata group (`none` models
`json.JSONDecodeError`), `body` is the body group. -/
structure RawMatch where
  meta : Option BlockMeta
  body : String
deriving DecidableEq

/-- `PoliMessage` dataclass (fields consumed by the engine; `raw_meta` and
`timestamp` are carried along by the Python code but never branched on, so
they are omitted). -/
structure PoliMessage where
  toParty : String
  type : String
  id : String
  body : String
deriving DecidableEq

/-- Python `str.strip()`: drop leading and trailing whitespace characters,
written over the character list so that it evaluates by kernel reduction. -/
def pyStrip (s : String) : String :=
  ⟨((s.data.dropWhile Char.isWhitespace).reverse.dropWhile Char.isWhitespace).reverse⟩

/-- Construction of a `PoliMessage` from parsed metadata, as in the loop
body of `find_blocks`: missing fields default to the empty string, the body
is stripped of surrounding whitespace. -/
def mkPoliMessage (meta : BlockMeta) (body : String) : PoliMessage :=
  { toParty := meta.toField.getD ""
    type := meta.typeField.getD ""
    id := meta.idField.getD ""
    body := pyStrip body }

/-- The local `blocks` list of `find_blocks`: every match whose metadata
parsed becomes a message; a parse failure drops only that match. -/
def decodedBlocks (ms : List RawMatch) : List PoliMessage :=
  ms.filterMap fun m => m.meta.map fun md => mkPoliMessage md m.body

/-- `find_blocks` (poli_orchestrator_v3.py lines 236-262): decode all
blocks, then, when more than one decoded, return only the last
(`return [blocks[-1]]`). -/
def find_blocks (ms : List RawMatch) : List PoliMessage :=
  let blocks := decodedBlocks ms
  if 1 < blocks.length then blocks.getLast?.toList else blocks

/-- Claim C1: for every transcript with more than one decodable block,
`find_blocks` returns only the last decodable block, and it never yields
more than one candidate message; with two well-formed blocks the first is
discarded. -/
theorem C1_find_blocks_last_wins (ms : List RawMatch) :
    (find_blocks ms).length ≤ 1 ∧
    (1 < (decodedBlocks ms).length →
      ∀ b, (decodedBlocks ms).getLast? = some b → find_blocks ms = [b]) := by
  constructor
  · unfold find_blocks
    by_cases h : 1 < (decodedBlocks ms).length
    · simp only [h, if_true]
      cases (decodedBlocks ms).getLast? <;> simp
    · simp only [h, if_false]
      omega
  · intro h b hb
    unfold find_blocks
    simp only [h, if_true, hb, Option.toList_some]

/-- Concrete two-block transcript for the C1 witness: a `plan` block with
id `a` followed by one with id `b`. -/
def matchA : RawMatch :=
  { meta := some { toField := some "EXECUTER", typeField := some "plan", idField := some "a" }
    body := "step A" }

/-- Second block of the C1 witness transcript. -/
def matchB : RawMatch :=
  { meta := some { toField := some "EXECUTER", typeField := some "plan", idField := some "b" }
    body := "step B" }

/-- Witness for C1: on the concrete two-block transcript, decode returns
only the second block. -/
theorem C1_witness :
    find_blocks [matchA, matchB] =
      [{ toParty := "EXECUTER", type := "plan", id := "b", body := "step B" }] :=
  (C1_find_blocks_last_wins [matchA, matchB]).2 (by decide)
    { toParty := "EXECUTER", type := "plan", id := "b", body := "step B" } (by decide)

/-- Truthiness of the `expected_types and msg.type not in expected_types`
test in `wait_for_new_block` (line 371): a `None` filter or an empty list
is falsy in Python, so no block is rejected then. -/
def filterRejects (expected : Option (List String)) (k : String) : Bool :=
  match expected with
  | some ts => !ts.isEmpty && !ts.contains k
  | none => false

/-- Body of the for-loop of `wait_for_new_block` (lines 369-381): the first
block with a non-empty id and unseen (id, type) pair that passes the kind
filter is selected; a block rejected by the filter is skipped WITHOUT being
marked seen. -/
def scanBlocks (expected : Option (List String)) :
    List PoliMessage → List (String × String) → Option PoliMessage
  | [], _ => none
  | msg :: rest, seen =>
    if msg.id ≠ "" ∧ (msg.id, msg.type) ∉ seen then
      if filterRejects expected msg.type then scanBlocks expected rest seen
      else some msg
    else scanBlocks expected rest seen

/-- Mutable locals of the `wait_for_new_block` loop: the shared seen set
and `last_nudge_time`. -/
structure WaitState where
  seen : List (String × String)
  lastNudge : ℚ
deriving DecidableEq

/-- Result of one `wait_for_new_block` call: final state, the returned
message (`none` models the timeout return), the clock value at the return,
and the clock values at which nudge reminders were written. -/
structure WaitOutcome where
  state : WaitState
  result : Option PoliMessage
  resultTime : Option ℚ
  nudges : List ℚ
deriving DecidableEq

/-- The while-loop of `wait_for_new_block` (lines 365-396).  Each trace
entry is one loop iteration: the wall-clock reading and the regex match
results of the captured buffer.  The loop guard `time.time() - start_time
< timeout` is checked per entry; the trace ending models the clock passing
the deadline.  On selecting a block its (id, type) pair is added to the
seen set and the block is returned; otherwise, if nudging is enabled and
more than `timeout / 3` elapsed since the last nudge, a reminder is
written and the nudge clock reset. -/
def waitLoop (timeout : ℚ) (expected : Option (List String)) (enableNudge : Bool)
    (start : ℚ) : List (ℚ × List RawMatch) → WaitState → WaitOutcome
  | [], st => { state := st, result := none, resultTime := none, nudges := [] }
  | (t, buf) :: rest, st =>
    if t - start < timeout then
      match scanBlocks expected (find_blocks buf) st.seen with
      | some msg =>
        { state := { seen := (msg.id, msg.type) :: st.seen, lastNudge := st.lastNudge }
          result := some msg, resultTime := some t, nudges := [] }
      | none =>
        if enableNudge = true ∧ timeout / 3 < t - st.lastNudge then
          let out := waitLoop timeout expected enableNudge start rest
            { seen := st.seen, lastNudge := t }
          { state := out.state, result := out.result, resultTime := out.resultTime
            nudges := t :: out.nudges }
        else waitLoop timeout expected enableNudge start rest st
    else { state := st, result := none, resultTime := none, nudges := [] }

/-- `wait_for_new_block` (lines 350-396): `last_nudge_time` starts at
`start_time`; the STATE_TABLE history append for a provided task id is
omitted (it never touches a status and no claim reads it). -/
def wait_for_new_block (timeout : ℚ) (expected : Option (List String)) (enableNudge : Bool)
    (trace : List (ℚ × List RawMatch)) (seen : List (String × String)) (start : ℚ) :
    WaitOutcome :=
  waitLoop timeout expected enableNudge start trace { seen := seen, lastNudge := start }

/-- `task_id = planner_msg.id or str(uuid.uuid4())` (monitor_planner line
615): Python `or` keeps the left operand when it is a non-empty string and
falls back to the fresh uuid otherwise. -/
def monitorTaskId (m : PoliMessage) (fresh : String) : String :=
  if m.id = "" then fresh else m.id

/-- State threaded through `wait_for_executor_result`: the shared seen set
and `task_state.messages`. -/
structure ExecWaitState where
  seen : List (String × String)
  messages : List PoliMessage
deriving DecidableEq

/-- Body of the for-loop of `wait_for_executor_result` (lines 327-340):
every block whose (id, type) pair is not yet seen is added to the seen set
and the task history BEFORE its kind is inspected; a result/error block
then breaks the loop, any other kind is merely logged. -/
def execScanBlocks : List PoliMessage → ExecWaitState → ExecWaitState × Option PoliMessage
  | [], st => (st, none)
  | msg :: rest, st =>
    if (msg.id, msg.type) ∈ st.seen then execScanBlocks rest st
    else
      let st2 : ExecWaitState :=
        { seen := (msg.id, msg.type) :: st.seen, messages := st.messages ++ [msg] }
      if msg.type = "result" ∨ msg.type = "error" then (st2, some msg)
      else execScanBlocks rest st2

/-- `wait_for_executor_result` (lines 318-347): poll successive captures
until a result/error block appears or the trace ends (timeout; the
INTERRUPTED flag stays false in modelled runs). -/
def wait_for_executor_result :
    List (List RawMatch) → ExecWaitState → ExecWaitState × Option PoliMessage
  | [], st => (st, none)
  | buf :: rest, st =>
    match execScanBlocks (find_blocks buf) st with
    | (st2, some m) => (st2, some m)
    | (st2, none) => wait_for_executor_result rest st2

theorem find_blocks_length_le_one (ms : List RawMatch) : (find_blocks ms).length ≤ 1 := by
  unfold find_blocks
  by_cases h : 1 < (decodedBlocks ms).length
  · simp only [h, if_true]
    cases (decodedBlocks ms).getLast? <;> simp
  · simp only [h, if_false]
    omega

theorem scanBlocks_some (expected : Option (List String)) :
    ∀ (l : List PoliMessage) (seen : List (String × String)) (m : PoliMessage),
      scanBlocks expected l seen = some m →
      m ∈ l ∧ m.id ≠ "" ∧ (m.id, m.type) ∉ seen ∧ filterRejects expected m.type = false
  | [], seen, m => by simp [scanBlocks]
  | msg :: rest, seen, m => by
    intro h
    unfold scanBlocks at h
    by_cases h1 : msg.id ≠ "" ∧ (msg.id, msg.type) ∉ seen
    · rw [if_pos h1] at h
      by_cases h2 : filterRejects expected msg.type = true
      · rw [if_pos h2] at h
        have ih := scanBlocks_some expected rest seen m h
        exact ⟨List.mem_cons_of_mem _ ih.1, ih.2⟩
      · rw [if_neg h2] at h
        cases h
        exact ⟨List.mem_cons_self _ _, h1.1, h1.2, by simpa using h2⟩
    · rw [if_neg h1] at h
      have ih := scanBlocks_some expected rest seen m h
      exact ⟨List.mem_cons_of_mem _ ih.1, ih.2⟩

theorem scanBlocks_none_of_seen (expected : Option (List String)) :
    ∀ (l : List PoliMessage) (seen : List (String × String)),
      (∀ b ∈ l, (b.id, b.type) ∈ seen) → scanBlocks expected l seen = none
  | [], seen => by intro _; rfl
  | msg :: rest, seen => by
    intro h
    unfold scanBlocks
    rw [if_neg (by simp [h msg (List.mem_cons_self _ _)])]
    exact scanBlocks_none_of_seen expected rest seen
      fun b hb => h b (List.mem_cons_of_mem _ hb)

theorem waitLoop_seen (timeout : ℚ) (expected : Option (List String)) (enableNudge : Bool)
    (start : ℚ) :
    ∀ (trace : List (ℚ × List RawMatch)) (st : WaitState),
      (waitLoop timeout expected enableNudge start trace st).state.seen =
        match (waitLoop timeout expected enableNudge start trace st).result with
        | some m => (m.id, m.type) :: st.seen
        | none => st.seen
  | [], st => rfl
  | (t, buf) :: rest, st => by
    unfold waitLoop
    by_cases hg : t - start < timeout
    · rw [if_pos hg]
      cases hs : scanBlocks expected (find_blocks buf) st.seen with
      | some msg => rfl
      | none =>
        by_cases hn : enableNudge = true ∧ timeout / 3 < t - st.lastNudge
        · rw [if_pos hn]
          exact waitLoop_seen timeout expected enableNudge start rest
            { seen := st.seen, lastNudge := t }
        · rw [if_neg hn]
          exact waitLoop_seen timeout expected enableNudge start rest st
    · rw [if_neg hg]

theorem waitLoop_result_some (timeout : ℚ) (expected : Option (List String))
    (enableNudge : Bool) (start : ℚ) :
    ∀ (trace : List (ℚ × List RawMatch)) (st : WaitState) (m : PoliMessage),
      (waitLoop timeout expected enableNudge start trace st).result = some m →
      ∃ e ∈ trace, scanBlocks expected (find_blocks e.2) st.seen = some m ∧
        (waitLoop timeout expected enableNudge start trace st).resultTime = some e.1
  | [], st, m => by simp [waitLoop]
  | (t, buf) :: rest, st, m => by
    intro h
    rw [waitLoop] at h ⊢
    by_cases hg : t - start < timeout
    · rw [if_pos hg] at h ⊢
      cases hs : scanBlocks expected (find_blocks buf) st.seen with
      | some msg =>
        rw [hs] at h
        dsimp only at h ⊢
        cases h
        exact ⟨(t, buf), List.mem_cons_self _ _, hs, rfl⟩
      | none =>
        rw [hs] at h
        dsimp only at h ⊢
        by_cases hn : enableNudge = true ∧ timeout / 3 < t - st.lastNudge
        · rw [if_pos hn] at h ⊢
          have ih := waitLoop_result_some timeout expected enableNudge start rest
            { seen := st.seen, lastNudge := t } m h
          obtain ⟨e, he, hscan, htime⟩ := ih
          exact ⟨e, List.mem_cons_of_mem _ he, hscan, htime⟩
        · rw [if_neg hn] at h ⊢
          have ih := waitLoop_result_some timeout expected enableNudge start rest st m h
          obtain ⟨e, he, hscan, htime⟩ := ih
          exact ⟨e, List.mem_cons_of_mem _ he, hscan, htime⟩
    · rw [if_neg hg] at h
      exact absurd h (by simp)

theorem waitLoop_none_of_all_seen (timeout : ℚ) (expected : Option (List String))
    (enableNudge : Bool) (start : ℚ) :
    ∀ (trace : List (ℚ × List RawMatch)) (st : WaitState),
      (∀ e ∈ trace, ∀ b ∈ find_blocks e.2, (b.id, b.type) ∈ st.seen) →
      (waitLoop timeout expected enableNudge start trace st).result = none
  | [], st => by intro _; rfl
  | (t, buf) :: rest, st => by
    intro hall
    rw [waitLoop]
    by_cases hg : t - start < timeout
    · rw [if_pos hg]
      have hs : scanBlocks expected (find_blocks buf) st.seen = none :=
        scanBlocks_none_of_seen expected _ _
          (hall (t, buf) (List.mem_cons_self _ _))
      rw [hs]
      dsimp only
      by_cases hn : enableNudge = true ∧ timeout / 3 < t - st.lastNudge
      · rw [if_pos hn]
        exact waitLoop_none_of_all_seen timeout expected enableNudge start rest
          { seen := st.seen, lastNudge := t }
          fun e he b hb => hall e (List.mem_cons_of_mem _ he) b hb
      · rw [if_neg hn]
        exact waitLoop_none_of_all_seen timeout expected enableNudge start rest st
          fun e he b hb => hall e (List.mem_cons_of_mem _ he) b hb
    · rw [if_neg hg]

theorem waitLoop_nudge_chain (timeout : ℚ) (expected : Option (List String))
    (enableNudge : Bool) (start : ℚ) :
    ∀ (trace : List (ℚ × List RawMatch)) (st : WaitState),
      List.Chain (fun a b => timeout / 3 < b - a) st.lastNudge
        (waitLoop timeout expected enableNudge start trace st).nudges
  | [], st => List.Chain.nil
  | (t, buf) :: rest, st => by
    rw [waitLoop]
    by_cases hg : t - start < timeout
    · rw [if_pos hg]
      cases hs : scanBlocks expected (find_blocks buf) st.seen with
      | some msg => exact List.Chain.nil
      | none =>
        dsimp only
        by_cases hn : enableNudge = true ∧ timeout / 3 < t - st.lastNudge
        · rw [if_pos hn]
          exact List.Chain.cons hn.2
            (waitLoop_nudge_chain timeout expected enableNudge start rest
              { seen := st.seen, lastNudge := t })
        · rw [if_neg hn]
          exact waitLoop_nudge_chain timeout expected enableNudge start rest st
    · rw [if_neg hg]
      exact List.Chain.nil

theorem waitLoop_resultTime_mem (timeout : ℚ) (expected : Option (List String))
    (enableNudge : Bool) (start : ℚ) :
    ∀ (trace : List (ℚ × List RawMatch)) (st : WaitState) (tr : ℚ),
      (waitLoop timeout expected enableNudge start trace st).resultTime = some tr →
      tr ∈ trace.map Prod.fst
  | [], st, tr => by simp [waitLoop]
  | (t, buf) :: rest, st, tr => by
    intro h
    rw [waitLoop] at h
    by_cases hg : t - start < timeout
    · rw [if_pos hg] at h
      cases hs : scanBlocks expected (find_blocks buf) st.seen with
      | some msg =>
        rw [hs] at h
        dsimp only at h
        cases h
        exact List.mem_map_of_mem _ (List.mem_cons_self _ _)
      | none =>
        rw [hs] at h
        dsimp only at h
        by_cases hn : enableNudge = true ∧ timeout / 3 < t - st.lastNudge
        · rw [if_pos hn] at h
          exact List.mem_cons_of_mem _
            (waitLoop_resultTime_mem timeout expected enableNudge start rest
              { seen := st.seen, lastNudge := t } tr h)
        · rw [if_neg hn] at h
          exact List.mem_cons_of_mem _
            (waitLoop_resultTime_mem timeout expected enableNudge start rest st tr h)
    · rw [if_neg hg] at h
      exact absurd h (by simp)

theorem waitLoop_nudges_lt (timeout : ℚ) (expected : Option (List String))
    (enableNudge : Bool) (start : ℚ) :
    ∀ (trace : List (ℚ × List RawMatch)) (st : WaitState) (tr : ℚ),
      List.Pairwise (fun a b => a < b) (trace.map Prod.fst) →
      (waitLoop timeout expected enableNudge start trace st).resultTime = some tr →
      ∀ n ∈ (waitLoop timeout expected enableNudge start trace st).nudges, n < tr
  | [], st, tr => by simp [waitLoop]
  | (t, buf) :: rest, st, tr => by
    intro hmono h
    rw [waitLoop] at h ⊢
    by_cases hg : t - start < timeout
    · rw [if_pos hg] at h ⊢
      cases hs : scanBlocks expected (find_blocks buf) st.seen with
      | some msg =>
        rw [hs] at h
        dsimp only at h ⊢
        simp
      | none =>
        rw [hs] at h
        dsimp only at h ⊢
        rw [List.map_cons, List.pairwise_cons] at hmono
        by_cases hn : enableNudge = true ∧ timeout / 3 < t - st.lastNudge
        · rw [if_pos hn] at h ⊢
          intro n hnmem
          rcases List.mem_cons.1 hnmem with hnt | hmem
          · rw [hnt]
            exact hmono.1 tr
              (waitLoop_resultTime_mem timeout expected enableNudge start rest
                { seen := st.seen, lastNudge := t } tr h)
          · exact waitLoop_nudges_lt timeout expected enableNudge start rest
              { seen := st.seen, lastNudge := t } tr hmono.2 h n hmem
        · rw [if_neg hn] at h ⊢
          exact waitLoop_nudges_lt timeout expected enableNudge start rest st tr hmono.2 h
    · rw [if_neg hg] at h
      exact absurd h (by simp)

theorem wait_seen_eq (timeout : ℚ) (expected : Option (List String)) (enableNudge : Bool)
    (trace : List (ℚ × List RawMatch)) (seen : List (String × String)) (start : ℚ) :
    (wait_for_new_block timeout expected enableNudge trace seen start).state.seen =
      match (wait_for_new_block timeout expected enableNudge trace seen start).result with
      | some m => (m.id, m.type) :: seen
      | none => seen :=
  waitLoop_seen timeout expected enableNudge start trace { seen := seen, lastNudge := start }

theorem wait_result_scan (timeout : ℚ) (expected : Option (List String)) (enableNudge : Bool)
    (trace : List (ℚ × List RawMatch)) (seen : List (String × String)) (start : ℚ)
    (m : PoliMessage)
    (h : (wait_for_new_block timeout expected enableNudge trace seen start).result = some m) :
    ∃ e ∈ trace, scanBlocks expected (find_blocks e.2) seen = some m := by
  obtain ⟨e, he, hscan, _⟩ :=
    waitLoop_result_some timeout expected enableNudge start trace
      { seen := seen, lastNudge := start } m h
  exact ⟨e, he, hscan⟩

theorem wait_none_of_all_seen (timeout : ℚ) (expected : Option (List String))
    (enableNudge : Bool) (trace : List (ℚ × List RawMatch)) (seen : List (String × String))
    (start : ℚ)
    (hall : ∀ e ∈ trace, ∀ b ∈ find_blocks e.2, (b.id, b.type) ∈ seen) :
    (wait_for_new_block timeout expected enableNudge trace seen start).result = none :=
  waitLoop_none_of_all_seen timeout expected enableNudge start trace
    { seen := seen, lastNudge := start } hall

/-- A plan-kind block appearing in the EXECUTER pane, outside the implicit
result/error/status filter of the executor wait. -/
def planMatchX : RawMatch :=
  { meta := some { toField := some "PLANNER", typeField := some "plan", idField := some "x1" }
    body := "b" }

/-- The message decoded from `planMatchX`. -/
def msgX : PoliMessage :=
  mkPoliMessage { toField := some "PLANNER", typeField := some "plan", idField := some "x1" } "b"

/-- Counterexample to claim C4: in `wait_for_executor_result`, a new block
whose kind (`plan`) is outside the filter IS added to the seen set (and not
returned), so a later wait with a broader (here: absent) filter can no
longer return that (id, kind) — contradicting the claim for the
executor-result wait path. -/
theorem C4_counterexample :
    (wait_for_executor_result [[planMatchX]] { seen := [], messages := [] }).1.seen =
      [("x1", "plan")] ∧
    (wait_for_executor_result [[planMatchX]] { seen := [], messages := [] }).2 = none ∧
    (wait_for_new_block 100 none false [(0, [planMatchX])]
      (wait_for_executor_result [[planMatchX]] { seen := [], messages := [] }).1.seen 0).result =
      none := by
  refine ⟨by decide, by decide, ?_⟩
  norm_num [wait_for_new_block, waitLoop, scanBlocks, filterRejects, find_blocks,
    decodedBlocks, mkPoliMessage, pyStrip, planMatchX, wait_for_executor_result,
    execScanBlocks]
  decide

/-- Claim C4 (amended): in `wait_for_new_block` the seen set after a wait
is exactly the seen set before plus the key of the returned message, so a
block skipped by the kind filter is left unmarked and stays returnable by a
later broader wait; but in `wait_for_executor_result` every new decoded
block is marked seen before its kind is inspected, regardless of kind. -/
theorem C4_amended_seen_marking (timeout : ℚ) (expected : Option (List String))
    (enableNudge : Bool) (trace : List (ℚ × List RawMatch))
    (seen : List (String × String)) (start : ℚ) :
    ((wait_for_new_block timeout expected enableNudge trace seen start).state.seen =
      match (wait_for_new_block timeout expected enableNudge trace seen start).result with
      | some m => (m.id, m.type) :: seen
      | none => seen) ∧
    ∀ (st : ExecWaitState) (msg : PoliMessage), (msg.id, msg.type) ∉ st.seen →
      (execScanBlocks [msg] st).1.seen = (msg.id, msg.type) :: st.seen := by
  constructor
  · exact waitLoop_seen timeout expected enableNudge start trace
      { seen := seen, lastNudge := start }
  · intro st msg hmem
    unfold execScanBlocks
    rw [if_neg hmem]
    dsimp only
    by_cases ht : msg.type = "result" ∨ msg.type = "error"
    · rw [if_pos ht]
    · rw [if_neg ht]
      rfl

/-- Witness for the amended C4, at a concrete empty trace and at the
concrete plan-kind block. -/
theorem C4_witness :
    ((wait_for_new_block 10 none false [] [] 0).state.seen =
      match (wait_for_new_block 10 none false [] [] 0).result with
      | some m => (m.id, m.type) :: []
      | none => []) ∧
    (execScanBlocks [msgX] { seen := [], messages := [] }).1.seen =
      (msgX.id, msgX.type) :: ([] : List (String × String)) :=
  ⟨(C4_amended_seen_marking 10 none false [] [] 0).1,
   (C4_amended_seen_marking 10 none false [] [] 0).2
     { seen := [], messages := [] } msgX (by decide)⟩

/-- A status-kind block with round id r1. -/
def statusMatchR1 : RawMatch :=
  { meta := some { toField := some "PLANNER", typeField := some "status", idField := some "r1" }
    body := "working" }

/-- A result-kind block sharing round id r1. -/
def resultMatchR1 : RawMatch :=
  { meta := some { toField := some "PLANNER", typeField := some "result", idField := some "r1" }
    body := "done" }

/-- The message decoded from `statusMatchR1`. -/
def msgStatusR1 : PoliMessage :=
  mkPoliMessage { toField := some "PLANNER", typeField := some "status", idField := some "r1" }
    "working"

/-- The message decoded from `resultMatchR1`. -/
def msgResultR1 : PoliMessage :=
  mkPoliMessage { toField := some "PLANNER", typeField := some "result", idField := some "r1" }
    "done"

/-- Claim C5: message identity for dedup is the (id, kind) pair.  Two
sequential polling waits threading one seen set never return the same
(id, kind) twice; feeding the same transcript twice yields no second
delivery; and two blocks sharing an id but differing in kind (a status then
a result) are each returned once. -/
theorem C5_dedup (T1 T2 : ℚ) (e1 e2 : Option (List String)) (n1 n2 : Bool)
    (seen : List (String × String)) (s1 s2 : ℚ) :
    (∀ (trace1 trace2 : List (ℚ × List RawMatch)) (m1 m2 : PoliMessage),
      (wait_for_new_block T1 e1 n1 trace1 seen s1).result = some m1 →
      (wait_for_new_block T2 e2 n2 trace2
        (wait_for_new_block T1 e1 n1 trace1 seen s1).state.seen s2).result = some m2 →
      (m1.id, m1.type) ≠ (m2.id, m2.type)) ∧
    (∀ (t1 t2 : ℚ) (buf : List RawMatch) (m : PoliMessage),
      (wait_for_new_block T1 e1 n1 [(t1, buf)] seen s1).result = some m →
      (wait_for_new_block T2 e2 n2 [(t2, buf)]
        (wait_for_new_block T1 e1 n1 [(t1, buf)] seen s1).state.seen s2).result = none) ∧
    ((wait_for_new_block 10 none false [(0, [statusMatchR1])] [] 0).result =
      some msgStatusR1 ∧
     (wait_for_new_block 10 none false [(1, [resultMatchR1])]
       (wait_for_new_block 10 none false [(0, [statusMatchR1])] [] 0).state.seen 1).result =
      some msgResultR1) := by
  refine ⟨?_, ?_, ?_, ?_⟩
  · intro trace1 trace2 m1 m2 h1 h2 hkey
    have hseen1 := wait_seen_eq T1 e1 n1 trace1 seen s1
    rw [h1] at hseen1
    dsimp only at hseen1
    obtain ⟨e, _, hscan⟩ := wait_result_scan T2 e2 n2 trace2 _ s2 m2 h2
    have hp := scanBlocks_some e2 _ _ _ hscan
    apply hp.2.2.1
    rw [hseen1, ← hkey]
    exact List.mem_cons_self _ _
  · intro t1 t2 buf m h1
    obtain ⟨e, he, hscan⟩ := wait_result_scan T1 e1 n1 [(t1, buf)] seen s1 m h1
    have hbe : e = (t1, buf) := by simpa using he
    rw [hbe] at hscan
    dsimp only at hscan
    have hp := scanBlocks_some e1 _ _ _ hscan
    have hmem := hp.1
    have hlen := find_blocks_length_le_one buf
    have hfb : find_blocks buf = [m] := by
      cases hfb0 : find_blocks buf with
      | nil =>
        rw [hfb0] at hmem
        exact absurd hmem (by simp)
      | cons a l =>
        rw [hfb0] at hmem hlen
        cases l with
        | nil =>
          have ham : m = a := by simpa using hmem
          rw [← ham]
        | cons b l2 => simp at hlen
    have hseen1 := wait_seen_eq T1 e1 n1 [(t1, buf)] seen s1
    rw [h1] at hseen1
    dsimp only at hseen1
    apply wait_none_of_all_seen
    intro e2 he2 b hb
    have hbe2 : e2 = (t2, buf) := by simpa using he2
    rw [hbe2] at hb
    dsimp only at hb
    rw [hfb] at hb
    have hbm : b = m := by simpa using hb
    rw [hbm, hseen1]
    exact List.mem_cons_self _ _
  · norm_num [wait_for_new_block, waitLoop, scanBlocks, filterRejects, find_blocks,
      decodedBlocks, mkPoliMessage, pyStrip, statusMatchR1, msgStatusR1]
    decide
  · norm_num [wait_for_new_block, waitLoop, scanBlocks, filterRejects, find_blocks,
      decodedBlocks, mkPoliMessage, pyStrip, statusMatchR1, resultMatchR1, msgStatusR1,
      msgResultR1]
    decide

/-- Witness for C5: the two concrete chained waits of the distinct-kinds
scenario return messages with distinct (id, kind) keys. -/
theorem C5_witness :
    (msgStatusR1.id, msgStatusR1.type) ≠ (msgResultR1.id, msgResultR1.type) :=
  (C5_dedup 10 10 none none false false [] 0 1).1
    [(0, [statusMatchR1])] [(1, [resultMatchR1])] msgStatusR1 msgResultR1
    ((C5_dedup 10 10 none none false false [] 0 1).2.2.1)
    ((C5_dedup 10 10 none none false false [] 0 1).2.2.2)

/-- Claim C8: with nudging enabled, at most one nudge occurs per timeout/3
window of continued silence (consecutive nudge instants are more than
timeout/3 apart, the first more than timeout/3 after the start), and no
nudge is written once a qualifying block has been returned by that wait. -/
theorem C8_nudge_cadence (timeout : ℚ) (expected : Option (List String))
    (trace : List (ℚ × List RawMatch)) (seen : List (String × String)) (start : ℚ)
    (hmono : List.Pairwise (fun a b => a < b) (trace.map Prod.fst)) :
    List.Chain (fun a b => timeout / 3 < b - a) start
      (wait_for_new_block timeout expected true trace seen start).nudges ∧
    ∀ tr, (wait_for_new_block timeout expected true trace seen start).resultTime = some tr →
      ∀ n ∈ (wait_for_new_block timeout expected true trace seen start).nudges, n < tr := by
  constructor
  · exact waitLoop_nudge_chain timeout expected true start trace
      { seen := seen, lastNudge := start }
  · intro tr htr
    exact waitLoop_nudges_lt timeout expected true start trace
      { seen := seen, lastNudge := start } tr hmono htr

/-- Witness for C8: a run that stays silent past timeout/3 (one nudge at
t = 4) and then returns a block at t = 8. -/
theorem C8_witness :
    List.Chain (fun a b => (9 : ℚ) / 3 < b - a) 0
      (wait_for_new_block 9 none true [(4, []), (8, [matchA])] [] 0).nudges :=
  (C8_nudge_cadence 9 none [(4, []), (8, [matchA])] [] 0 (by decide)).1

/-- The message decoded from `matchA`. -/
def msgA : PoliMessage :=
  mkPoliMessage { toField := some "EXECUTER", typeField := some "plan", idField := some "a" }
    "step A"

/-- Claim C10: every message returned by the polling wait has a non-empty
id; the seen set gains exactly the returned key (so an id-less block is
never marked seen and never returned); hence monitor mode's fallback that
assigns a fresh generated task id is never taken for a waiter-returned
message. -/
theorem C10_nonempty_id (timeout : ℚ) (expected : Option (List String)) (enableNudge : Bool)
    (trace : List (ℚ × List RawMatch)) (seen : List (String × String)) (start : ℚ)
    (m : PoliMessage) (fresh : String)
    (h : (wait_for_new_block timeout expected enableNudge trace seen start).result = some m) :
    m.id ≠ "" ∧
    (wait_for_new_block timeout expected enableNudge trace seen start).state.seen =
      (m.id, m.type) :: seen ∧
    monitorTaskId m fresh = m.id := by
  obtain ⟨e, _, hscan⟩ :=
    wait_result_scan timeout expected enableNudge trace seen start m h
  have hp := scanBlocks_some expected _ _ _ hscan
  refine ⟨hp.2.1, ?_, ?_⟩
  · have hs := wait_seen_eq timeout expected enableNudge trace seen start
    rw [h] at hs
    dsimp only at hs
    exact hs
  · unfold monitorTaskId
    rw [if_neg hp.2.1]

/-- Witness for C10: the concrete one-block wait returns the id-a plan
message, whose id is non-empty and which keeps its own id in monitor
mode. -/
theorem C10_witness :
    msgA.id ≠ "" ∧
    (wait_for_new_block 10 none false [(0, [matchA])] [] 0).state.seen =
      (msgA.id, msgA.type) :: [] ∧
    monitorTaskId msgA "generated-uuid" = msgA.id :=
  C10_nonempty_id 10 none false [(0, [matchA])] [] 0 msgA "generated-uuid" (by
    norm_num [wait_for_new_block, waitLoop, scanBlocks, filterRejects, find_blocks,
      decodedBlocks, mkPoliMessage, pyStrip, matchA, msgA]
    decide)

/-- Mutable state of one `route_continuous` run for its single task: the
task's stored status and round, plus counters for the channel writes and
polls the engine performed.  `statusLog` records every value assigned to
`STATE_TABLE[task_id].status`, in chronological order. -/
structure RouteState where
  status : String
  round : Nat
  plannerPolls : Nat
  execInstrSent : Nat
  summarySent : Nat
  statusLog : List String
deriving DecidableEq

/-- The while-loop of `route_continuous` (lines 450-551).  The two polling
waits are abstracted by oracles giving, for each round number, the message
the planner wait returns and the message the executor wait returns (`none`
models the respective timeout; the INTERRUPTED flag stays false).  `fuel`
counts the remaining admissible iterations, so the loop guard
`round_count < max_rounds` is `fuel > 0`; `task_complete` and the `break`
statements are modelled by returning.  Per iteration: the round counter
increments and one planner poll happens; a planner timeout stores
"timeout"; a complete block stores "completed" and sends the one final
summary prompt; otherwise the instruction is forwarded to the EXECUTER,
and an executor timeout stores "exec_timeout" while a result leads to the
review prompt and the next iteration. -/
def routeLoop (planner executer : Nat → Option PoliMessage) :
    Nat → RouteState → RouteState
  | 0, st => st
  | fuel + 1, st =>
    let st1 : RouteState :=
      { st with round := st.round + 1, plannerPolls := st.plannerPolls + 1 }
    match planner (st.round + 1) with
    | none =>
      { st1 with status := "timeout", statusLog := st1.statusLog ++ ["timeout"] }
    | some msg =>
      if msg.type = "complete" then
        { st1 with
            status := "completed"
            statusLog := st1.statusLog ++ ["completed"]
            summarySent := st1.summarySent + 1 }
      else
        let st2 : RouteState := { st1 with execInstrSent := st1.execInstrSent + 1 }
        match executer (st.round + 1) with
        | none =>
          { st2 with status := "exec_timeout", statusLog := st2.statusLog ++ ["exec_timeout"] }
        | some _ => routeLoop planner executer fuel st2

/-- `route_continuous` (lines 399-586) for one task: the state-table entry
is created with the dataclass default status "active" (lines 409-413); the
closing summary block (lines 553-586) only prints and exports, assigning
no status. -/
def route_continuous (planner executer : Nat → Option PoliMessage) (max_rounds : Nat) :
    RouteState :=
  routeLoop planner executer max_rounds
    { status := "active", round := 0, plannerPolls := 0, execInstrSent := 0, summarySent := 0
      statusLog := ["active"] }

/-- The `TaskState` fields monitor mode reads and writes. -/
structure MTaskState where
  round : Nat
  status : String
  messages : List PoliMessage
deriving DecidableEq

/-- The STATE_TABLE together with instrumentation: `statusLog` records
every status value stored into any TaskState (in order), `execForwards`
counts instruction prompts written to the EXECUTER, `summaryPrompts`
counts summary-request prompts written to the PLANNER. -/
structure MonitorState where
  table : List (String × MTaskState)
  statusLog : List String
  execForwards : Nat
  summaryPrompts : Nat
deriving DecidableEq

/-- Inputs of one monitor-loop iteration: the outcome of the planner wait,
the fresh uuid that would name the task were the block id empty, and the
outcome of the executor wait for the forwarded instruction. -/
structure MonitorInput where
  plannerMsg : Option PoliMessage
  freshId : String
  execResult : Option PoliMessage
deriving DecidableEq

/-- Dictionary lookup in the modelled STATE_TABLE. -/
def lookupTask (table : List (String × MTaskState)) (id : String) : Option MTaskState :=
  (table.find? fun p => p.1 == id).map fun p => p.2

/-- Dictionary update (the key is known to be present when used). -/
def setTask (table : List (String × MTaskState)) (id : String) (ts : MTaskState) :
    List (String × MTaskState) :=
  table.map fun p => if p.1 == id then (id, ts) else p

/-- `ensure_task_state` (lines 147-155): insert a fresh entry with the
dataclass defaults round 0 and status "active" when the id is absent. -/
def ensureTask (table : List (String × MTaskState)) (id : String) :
    List (String × MTaskState) :=
  if (table.find? fun p => p.1 == id).isSome then table
  else table ++ [(id, { round := 0, status := "active", messages := [] })]

/-- One iteration of `monitor_planner` (lines 601-640), the waits
abstracted by the iteration's `MonitorInput`.  A planner-wait timeout just
loops.  Otherwise: the task id is the block id or a fresh uuid; the task
state is fetched or created (a creation stores the default "active"); the
block joins the history; a complete block stores "completed" and loops; a
task already at max_rounds stores "max_rounds" and loops; otherwise the
round increments, `planner_<kind>` is stored (line 630), the instruction
is forwarded (`forward_instruction_to_executer` stores "executing", line
283, and counts one EXECUTER write); an executor timeout stores
"exec_timeout", else `send_result_to_planner` stores "awaiting_planner"
(line 314) after appending the result to the history. -/
def monitorStep (max_rounds : Nat) (input : MonitorInput) (ms : MonitorState) :
    MonitorState :=
  match input.plannerMsg with
  | none => ms
  | some msg =>
    let task_id := monitorTaskId msg input.freshId
    let created := (lookupTask ms.table task_id).isNone
    let table := ensureTask ms.table task_id
    let log0 := if created then ms.statusLog ++ ["active"] else ms.statusLog
    let ts0 := (lookupTask table task_id).getD { round := 0, status := "active", messages := [] }
    let ts1 : MTaskState := { ts0 with messages := ts0.messages ++ [msg] }
    if msg.type = "complete" then
      { ms with
          table := setTask table task_id { ts1 with status := "completed" }
          statusLog := log0 ++ ["completed"] }
    else if max_rounds ≤ ts1.round then
      { ms with
          table := setTask table task_id { ts1 with status := "max_rounds" }
          statusLog := log0 ++ ["max_rounds"] }
    else
      let ts2 : MTaskState :=
        { ts1 with round := ts1.round + 1, status := "executing" }
      let log1 := log0 ++ ["planner_" ++ msg.type, "executing"]
      match input.execResult with
      | none =>
        { table := setTask table task_id { ts2 with status := "exec_timeout" }
          statusLog := log1 ++ ["exec_timeout"]
          execForwards := ms.execForwards + 1
          summaryPrompts := ms.summaryPrompts }
      | some r =>
        { table := setTask table task_id
            { ts2 with status := "awaiting_planner", messages := ts2.messages ++ [r] }
          statusLog := log1 ++ ["awaiting_planner"]
          execForwards := ms.execForwards + 1
          summaryPrompts := ms.summaryPrompts }

/-- The monitor loop (lines 591-640) over a finite run of iterations. -/
def monitorRun (max_rounds : Nat) : List MonitorInput → MonitorState → MonitorState
  | [], ms => ms
  | i :: rest, ms => monitorRun max_rounds rest (monitorStep max_rounds i ms)

/-- Initial monitor state: empty STATE_TABLE, nothing yet written. -/
def monitorInit : MonitorState :=
  { table := [], statusLog := [], execForwards := 0, summaryPrompts := 0 }

/-- The five statuses the claimed terminal-exclusivity invariant calls
terminal. -/
def terminalStatuses : List String :=
  ["completed", "timeout", "exec_timeout", "interrupted", "max_rounds"]

/-- The status domain the specification declares. -/
def declaredStatusDomain : List String :=
  ["active", "executing", "awaiting_review", "completed", "timeout", "exec_timeout",
   "max_rounds", "interrupted"]

/-- The statuses the engine actually stores: the spec's `awaiting_review`
appears as `awaiting_planner`, monitor mode additionally stores
`planner_<kind>` markers, and `interrupted` is never stored. -/
def actualStatusDomain : List String :=
  ["active", "executing", "awaiting_planner", "completed", "timeout", "exec_timeout",
   "max_rounds", "planner_plan", "planner_continue", "planner_revision"]

theorem routeLoop_statusLog_shape (planner executer : Nat → Option PoliMessage) :
    ∀ (fuel : Nat) (st : RouteState),
      ∃ tail, (routeLoop planner executer fuel st).statusLog = st.statusLog ++ tail ∧
        tail.length ≤ 1 ∧
        ∀ s ∈ tail, s = "timeout" ∨ s = "completed" ∨ s = "exec_timeout"
  | 0, st => ⟨[], by simp [routeLoop]⟩
  | fuel + 1, st => by
    simp only [routeLoop]
    cases hp : planner (st.round + 1) with
    | none => exact ⟨["timeout"], by simp, by simp, by simp⟩
    | some msg =>
      dsimp only
      by_cases hc : msg.type = "complete"
      · rw [if_pos hc]
        exact ⟨["completed"], by simp, by simp, by simp⟩
      · rw [if_neg hc]
        cases he : executer (st.round + 1) with
        | none => exact ⟨["exec_timeout"], by simp, by simp, by simp⟩
        | some r =>
          obtain ⟨tail, h1, h2, h3⟩ := routeLoop_statusLog_shape planner executer fuel
            { st with
                round := st.round + 1, plannerPolls := st.plannerPolls + 1,
                execInstrSent := st.execInstrSent + 1 }
          exact ⟨tail, by simpa using h1, h2, h3⟩

/-- A complete-kind planner block for task t1. -/
def msgCompleteT1 : PoliMessage :=
  { toParty := "USER", type := "complete", id := "t1", body := "all done" }

/-- A continue-kind planner block reusing task id t1. -/
def msgContinueT1 : PoliMessage :=
  { toParty := "EXECUTER", type := "continue", id := "t1", body := "next step" }

/-- A result block from the executor. -/
def msgResultExec : PoliMessage :=
  { toParty := "PLANNER", type := "result", id := "t1-R1", body := "ok" }

/-- Counterexample to claim C2: in monitor mode, after a complete block for
task t1 stores the terminal status "completed", a later continue block with
the same task id changes the stored status again (to "planner_continue",
then "executing", then "awaiting_planner") — the status trajectory shows a
terminal status followed by further changes. -/
theorem C2_counterexample :
    (monitorRun 50
        [{ plannerMsg := some msgCompleteT1, freshId := "u1", execResult := none },
         { plannerMsg := some msgContinueT1, freshId := "u2", execResult := some msgResultExec }]
        monitorInit).statusLog =
      ["active", "completed", "planner_continue", "executing", "awaiting_planner"] ∧
    "completed" ∈ terminalStatuses ∧ "planner_continue" ≠ "completed" := by
  refine ⟨by decide, by decide, by decide⟩

/-- Claim C2 (amended): terminal exclusivity holds for the continuous
engine — in the chronological log of statuses a `route_continuous` run
stores for its task, a terminal status can only be the final entry, so once
stored it never changes for the remainder of the run.  (In monitor mode the
property fails: a later block with an already-terminal task id changes the
status again.) -/
theorem C2_amended_terminal_exclusive (planner executer : Nat → Option PoliMessage)
    (max_rounds : Nat) (s : String)
    (hs : s ∈ (route_continuous planner executer max_rounds).statusLog.dropLast) :
    s ∉ terminalStatuses := by
  obtain ⟨tail, h1, h2, _⟩ := routeLoop_statusLog_shape planner executer max_rounds
    { status := "active", round := 0, plannerPolls := 0, execInstrSent := 0, summarySent := 0
      statusLog := ["active"] }
  unfold route_continuous at hs
  rw [h1] at hs
  cases tail with
  | nil => simp at hs
  | cons x xs =>
    have hxs : xs = [] := by
      cases xs with
      | nil => rfl
      | cons y ys => simp at h2
    subst hxs
    have : s = "active" := by simpa using hs
    subst this
    decide

/-- Witness for the amended C2: a run whose planner times out immediately;
the only non-final logged status is the initial "active", not terminal. -/
theorem C2_witness : "active" ∉ terminalStatuses :=
  C2_amended_terminal_exclusive (fun _ => none) (fun _ => none) 1 "active" (by decide)

/-- Scripted planner that always replies with a continue block. -/
def alwaysContinue (_r : Nat) : Option PoliMessage :=
  some { toParty := "EXECUTER", type := "continue", id := "t1", body := "go on" }

/-- Scripted executor that always replies with a result block. -/
def alwaysResult (_r : Nat) : Option PoliMessage :=
  some { toParty := "PLANNER", type := "result", id := "t1-R", body := "ok" }

/-- Counterexample to claim C3: with maxRounds = 2 and a planner that
always replies continue (executor always answering), the continuous run
stops after round 2 — but the stored status is still "active", not
"max_rounds"; `route_continuous` never stores "max_rounds". -/
theorem C3_counterexample :
    (route_continuous alwaysContinue alwaysResult 2).status = "active" ∧
    (route_continuous alwaysContinue alwaysResult 2).status ≠ "max_rounds" ∧
    (route_continuous alwaysContinue alwaysResult 2).round = 2 ∧
    (route_continuous alwaysContinue alwaysResult 2).execInstrSent = 2 := by
  refine ⟨by decide, by decide, by decide, by decide⟩

theorem ensureTask_found (table : List (String × MTaskState)) (id : String)
    (ts : MTaskState) (h : lookupTask table id = some ts) : ensureTask table id = table := by
  unfold ensureTask
  have hsome : (table.find? fun p => p.1 == id).isSome = true := by
    unfold lookupTask at h
    cases hf : table.find? fun p => p.1 == id with
    | none => rw [hf] at h; simp at h
    | some p => rfl
  rw [if_pos hsome]

theorem routeLoop_no_complete (planner executer : Nat → Option PoliMessage)
    (hp : ∀ r, ∃ msg, planner r = some msg ∧ msg.type ≠ "complete")
    (he : ∀ r, (executer r).isSome = true) :
    ∀ (fuel : Nat) (st : RouteState),
      (routeLoop planner executer fuel st).status = st.status ∧
      (routeLoop planner executer fuel st).execInstrSent = st.execInstrSent + fuel ∧
      (routeLoop planner executer fuel st).round = st.round + fuel
  | 0, st => by simp [routeLoop]
  | fuel + 1, st => by
    simp only [routeLoop]
    obtain ⟨msg, hmsg, hnc⟩ := hp (st.round + 1)
    rw [hmsg]
    dsimp only
    rw [if_neg hnc]
    cases hex : executer (st.round + 1) with
    | none =>
      have := he (st.round + 1)
      rw [hex] at this
      simp at this
    | some r =>
      dsimp only
      have ih := routeLoop_no_complete planner executer hp he fuel
        { st with
            round := st.round + 1, plannerPolls := st.plannerPolls + 1,
            execInstrSent := st.execInstrSent + 1 }
      refine ⟨by simpa using ih.1, ?_, ?_⟩
      · have := ih.2.1
        simp only at this
        omega
      · have := ih.2.2
        simp only at this
        omega

/-- Claim C3 (amended): when the round counter reaches maxRounds without a
complete block, the continuous loop stops forwarding (exactly maxRounds
instructions are written to the EXECUTER, none for a further round), but
the stored status remains "active" — continuous mode never stores
"max_rounds".  Only monitor mode stores "max_rounds": when a further
planner block arrives for a task whose round has already reached
maxRounds, the status becomes "max_rounds" and that block is not forwarded
to the EXECUTER. -/
theorem C3_amended_max_rounds (planner executer : Nat → Option PoliMessage)
    (max_rounds : Nat)
    (hp : ∀ r, ∃ msg, planner r = some msg ∧ msg.type ≠ "complete")
    (he : ∀ r, (executer r).isSome = true) :
    ((route_continuous planner executer max_rounds).status = "active" ∧
     (route_continuous planner executer max_rounds).execInstrSent = max_rounds ∧
     (route_continuous planner executer max_rounds).round = max_rounds) ∧
    ∀ (mr : Nat) (input : MonitorInput) (ms : MonitorState) (msg : PoliMessage)
      (ts : MTaskState),
      input.plannerMsg = some msg → msg.type ≠ "complete" →
      lookupTask ms.table (monitorTaskId msg input.freshId) = some ts → mr ≤ ts.round →
      (monitorStep mr input ms).execForwards = ms.execForwards ∧
      (monitorStep mr input ms).statusLog = ms.statusLog ++ ["max_rounds"] := by
  constructor
  · have h := routeLoop_no_complete planner executer hp he max_rounds
      { status := "active", round := 0, plannerPolls := 0, execInstrSent := 0
        summarySent := 0, statusLog := ["active"] }
    refine ⟨by simpa using h.1, by simpa using h.2.1, by simpa using h.2.2⟩
  · intro mr input ms msg ts hin hnc hlook hge
    unfold monitorStep
    rw [hin]
    dsimp only
    rw [ensureTask_found ms.table _ ts hlook, hlook]
    simp only [Option.isNone_some, Bool.false_eq_true, if_false, Option.getD_some,
      if_neg hnc]
    rw [if_pos (by simpa using hge)]
    exact ⟨rfl, rfl⟩

/-- Monitor task state already at round 1, for instantiating the
max-rounds branch. -/
def tsDemo : MTaskState := { round := 1, status := "awaiting_planner", messages := [] }

/-- Monitor state tracking task t1 at round 1. -/
def msDemo : MonitorState :=
  { table := [("t1", tsDemo)], statusLog := ["active"], execForwards := 0, summaryPrompts := 0 }

/-- Witness for the amended C3: a 3-round always-continue run ends with
status "active" after exactly 3 instructions, and a monitor step at the
round limit stores "max_rounds" without forwarding. -/
theorem C3_witness :
    ((route_continuous alwaysContinue alwaysResult 3).status = "active" ∧
     (route_continuous alwaysContinue alwaysResult 3).execInstrSent = 3 ∧
     (route_continuous alwaysContinue alwaysResult 3).round = 3) ∧
    (monitorStep 1 { plannerMsg := some msgContinueT1, freshId := "u", execResult := none }
        msDemo).statusLog = msDemo.statusLog ++ ["max_rounds"] :=
  ⟨(C3_amended_max_rounds alwaysContinue alwaysResult 3
      (fun _r => ⟨_, rfl, by decide⟩) (fun _r => rfl)).1,
   ((C3_amended_max_rounds alwaysContinue alwaysResult 3
      (fun _r => ⟨_, rfl, by decide⟩) (fun _r => rfl)).2 1
      { plannerMsg := some msgContinueT1, freshId := "u", execResult := none }
      msDemo msgContinueT1 tsDemo rfl (by decide) (by decide) (by decide)).2⟩

/-- A plan-kind planner block for task t1. -/
def msgPlanT1 : PoliMessage :=
  { toParty := "EXECUTER", type := "plan", id := "t1", body := "do x" }

/-- Counterexample to claim C6: the engine stores "awaiting_planner" (set
by send_result_to_planner) and "planner_plan" (set by the monitor loop),
both outside the declared status domain, which instead lists the never
stored "awaiting_review". -/
theorem C6_counterexample :
    "awaiting_planner" ∈ (monitorRun 50
        [{ plannerMsg := some msgPlanT1, freshId := "u1", execResult := some msgResultExec }]
        monitorInit).statusLog ∧
    "awaiting_planner" ∉ declaredStatusDomain ∧
    "planner_plan" ∈ (monitorRun 50
        [{ plannerMsg := some msgPlanT1, freshId := "u1", execResult := some msgResultExec }]
        monitorInit).statusLog ∧
    "planner_plan" ∉ declaredStatusDomain := by
  refine ⟨by decide, by decide, by decide, by decide⟩

theorem monitorStep_statusLog_domain (mr : Nat) (i : MonitorInput) (ms : MonitorState)
    (hin : ∀ msg, i.plannerMsg = some msg →
      msg.type = "plan" ∨ msg.type = "continue" ∨ msg.type = "revision" ∨
        msg.type = "complete")
    (hms : ∀ s ∈ ms.statusLog, s ∈ actualStatusDomain) :
    ∀ s ∈ (monitorStep mr i ms).statusLog, s ∈ actualStatusDomain := by
  intro s hs
  unfold monitorStep at hs
  cases hpm : i.plannerMsg with
  | none => rw [hpm] at hs; exact hms s hs
  | some msg =>
    rw [hpm] at hs
    dsimp only at hs
    have hlog0 : ∀ x ∈ (if (lookupTask ms.table (monitorTaskId msg i.freshId)).isNone = true
        then ms.statusLog ++ ["active"] else ms.statusLog), x ∈ actualStatusDomain := by
      intro x hx
      by_cases hcr : (lookupTask ms.table (monitorTaskId msg i.freshId)).isNone = true
      · rw [if_pos hcr] at hx
        rcases List.mem_append.1 hx with h | h
        · exact hms x h
        · have hxa : x = "active" := by simpa using h
          rw [hxa]; decide
      · rw [if_neg hcr] at hx
        exact hms x hx
    by_cases hc : msg.type = "complete"
    · rw [if_pos hc] at hs
      dsimp only at hs
      rcases List.mem_append.1 hs with h | h
      · exact hlog0 s h
      · have hsc : s = "completed" := by simpa using h
        rw [hsc]; decide
    · rw [if_neg hc] at hs
      have hplanner : ("planner_" ++ msg.type) ∈ actualStatusDomain := by
        rcases hin msg hpm with ht | ht | ht | ht
        · rw [ht]; decide
        · rw [ht]; decide
        · rw [ht]; decide
        · exact absurd ht hc
      split at hs
      · dsimp only at hs
        rcases List.mem_append.1 hs with h | h
        · exact hlog0 s h
        · have hsm : s = "max_rounds" := by simpa using h
          rw [hsm]; decide
      · cases hex : i.execResult with
        | none =>
          rw [hex] at hs
          dsimp only at hs
          rcases List.mem_append.1 hs with h | h
          · rcases List.mem_append.1 h with h2 | h2
            · exact hlog0 s h2
            · rcases List.mem_cons.1 h2 with h3 | h3
              · rw [h3]; exact hplanner
              · have hse : s = "executing" := by simpa using h3
                rw [hse]; decide
          · have hst : s = "exec_timeout" := by simpa using h
            rw [hst]; decide
        | some r =>
          rw [hex] at hs
          dsimp only at hs
          rcases List.mem_append.1 hs with h | h
          · rcases List.mem_append.1 h with h2 | h2
            · exact hlog0 s h2
            · rcases List.mem_cons.1 h2 with h3 | h3
              · rw [h3]; exact hplanner
              · have hse : s = "executing" := by simpa using h3
                rw [hse]; decide
          · have hst : s = "awaiting_planner" := by simpa using h
            rw [hst]; decide

theorem monitorRun_statusLog_domain (mr : Nat) :
    ∀ (inputs : List MonitorInput) (ms : MonitorState),
      (∀ i ∈ inputs, ∀ msg, i.plannerMsg = some msg →
        msg.type = "plan" ∨ msg.type = "continue" ∨ msg.type = "revision" ∨
          msg.type = "complete") →
      (∀ s ∈ ms.statusLog, s ∈ actualStatusDomain) →
      ∀ s ∈ (monitorRun mr inputs ms).statusLog, s ∈ actualStatusDomain
  | [], ms => by
    intro _ hms
    exact hms
  | i :: rest, ms => by
    intro hin hms
    rw [monitorRun]
    exact monitorRun_statusLog_domain mr rest (monitorStep mr i ms)
      (fun j hj => hin j (List.mem_cons_of_mem _ hj))
      (monitorStep_statusLog_domain mr i ms (hin i (List.mem_cons_self _ _)) hms)

/-- Claim C6 (amended): every status value the engine stores lies in the
domain {active, executing, awaiting_planner, completed, timeout,
exec_timeout, max_rounds, planner_plan, planner_continue,
planner_revision}.  The declared domain is wrong on two points:
"awaiting_review" and "interrupted" are never stored, while
"awaiting_planner" and the planner_<kind> markers are stored but lie
outside the declared domain. -/
theorem C6_amended_status_domain (mr : Nat) (inputs : List MonitorInput)
    (planner executer : Nat → Option PoliMessage) (mr2 : Nat)
    (hin : ∀ i ∈ inputs, ∀ msg, i.plannerMsg = some msg →
      msg.type = "plan" ∨ msg.type = "continue" ∨ msg.type = "revision" ∨
        msg.type = "complete") :
    (∀ s ∈ (monitorRun mr inputs monitorInit).statusLog, s ∈ actualStatusDomain) ∧
    (∀ s ∈ (route_continuous planner executer mr2).statusLog, s ∈ actualStatusDomain) := by
  constructor
  · exact monitorRun_statusLog_domain mr inputs monitorInit hin
      (by intro s hs; simp [monitorInit] at hs)
  · intro s hs
    obtain ⟨tail, h1, _, h3⟩ := routeLoop_statusLog_shape planner executer mr2
      { status := "active", round := 0, plannerPolls := 0, execInstrSent := 0
        summarySent := 0, statusLog := ["active"] }
    unfold route_continuous at hs
    rw [h1] at hs
    rcases List.mem_append.1 hs with h | h
    · have hsa : s = "active" := by simpa using h
      rw [hsa]; decide
    · rcases h3 s h with ht | ht | ht <;> rw [ht] <;> decide

/-- Witness for the amended C6 at a concrete monitor run and the statuses
it stores. -/
theorem C6_witness : "awaiting_planner" ∈ actualStatusDomain :=
  (C6_amended_status_domain 50
      [{ plannerMsg := some msgPlanT1, freshId := "u1", execResult := some msgResultExec }]
      (fun _n => none) (fun _n => none) 1
      (by
        intro i hi msg hm
        rw [List.mem_singleton] at hi
        subst hi
        dsimp only at hm
        cases hm
        decide)).1 "awaiting_planner" (by decide)

/-- Counterexample to claim C9: monitor mode accepts a complete block for
t1 — the stored status becomes "completed" — yet no summary-request prompt
is sent (zero, not exactly one). -/
theorem C9_counterexample :
    (monitorRun 50
        [{ plannerMsg := some msgCompleteT1, freshId := "u1", execResult := none }]
        monitorInit).summaryPrompts = 0 ∧
    lookupTask (monitorRun 50
        [{ plannerMsg := some msgCompleteT1, freshId := "u1", execResult := none }]
        monitorInit).table "t1" =
      some { round := 0, status := "completed", messages := [msgCompleteT1] } := by
  refine ⟨by decide, by decide⟩

theorem monitorRun_summaryPrompts (mr : Nat) :
    ∀ (inputs : List MonitorInput) (ms : MonitorState),
      (monitorRun mr inputs ms).summaryPrompts = ms.summaryPrompts
  | [], _ => rfl
  | i :: rest, ms => by
    rw [monitorRun, monitorRun_summaryPrompts mr rest]
    unfold monitorStep
    cases hpm : i.plannerMsg with
    | none => rfl
    | some msg =>
      dsimp only
      by_cases hc : msg.type = "complete"
      · rw [if_pos hc]
      · rw [if_neg hc]
        split
        · rfl
        · cases i.execResult <;> rfl

theorem routeLoop_completes (planner executer : Nat → Option PoliMessage) :
    ∀ (n fuel : Nat) (st : RouteState) (msg : PoliMessage),
      n < fuel →
      (∀ k, st.round < k → k ≤ st.round + n →
        ∃ m2, planner k = some m2 ∧ m2.type ≠ "complete" ∧ (executer k).isSome = true) →
      planner (st.round + n + 1) = some msg → msg.type = "complete" →
      (routeLoop planner executer fuel st).status = "completed" ∧
      (routeLoop planner executer fuel st).summarySent = st.summarySent + 1 ∧
      (routeLoop planner executer fuel st).round = st.round + n + 1 ∧
      (routeLoop planner executer fuel st).plannerPolls = st.plannerPolls + n + 1
  | 0, fuel, st, msg => by
    intro hn hpre hp hc
    cases fuel with
    | zero => omega
    | succ f =>
      rw [routeLoop]
      dsimp only
      rw [show st.round + 0 + 1 = st.round + 1 from by omega] at hp
      rw [hp]
      dsimp only
      rw [if_pos hc]
      refine ⟨rfl, rfl, ?_, ?_⟩ <;> dsimp only
  | n + 1, fuel, st, msg => by
    intro hn hpre hp hc
    cases fuel with
    | zero => omega
    | succ f =>
      rw [routeLoop]
      dsimp only
      obtain ⟨m2, hm2, hnc, hex⟩ := hpre (st.round + 1) (by omega) (by omega)
      rw [hm2]
      dsimp only
      rw [if_neg hnc]
      cases hexe : executer (st.round + 1) with
      | none =>
        rw [hexe] at hex
        simp at hex
      | some rr =>
        dsimp only
        have hpre2 : ∀ k, st.round + 1 < k → k ≤ st.round + 1 + n →
            ∃ m2, planner k = some m2 ∧ m2.type ≠ "complete" ∧
              (executer k).isSome = true :=
          fun k h1 h2 => hpre k (by omega) (by omega)
        have hp2 : planner (st.round + 1 + n + 1) = some msg := by
          rw [show st.round + 1 + n + 1 = st.round + (n + 1) + 1 from by omega]
          exact hp
        have ih := routeLoop_completes planner executer n f
          { st with
              round := st.round + 1, plannerPolls := st.plannerPolls + 1,
              execInstrSent := st.execInstrSent + 1 } msg (by omega) hpre2 hp2 hc
        refine ⟨ih.1, ?_, ?_, ?_⟩
        · have h2 := ih.2.1
          simp only at h2
          omega
        · have h3 := ih.2.2.1
          simp only at h3
          omega
        · have h4 := ih.2.2.2
          simp only at h4
          omega

/-- Claim C9 (amended): in continuous mode, whenever a planner complete
block is accepted — at any round r ≤ maxRounds reached after r - 1 rounds
of non-complete planner replies each answered by the executor — the engine
stores "completed", sends the summary-request prompt exactly once, and
stops: the round and poll counters end at r, so no further polling happens
for the task.  In monitor mode, by contrast, a complete block stores
"completed" but NO summary prompt is ever sent (a monitor run never
changes the summary-prompt count), and the loop keeps polling. -/
theorem C9_amended_complete_handling (planner executer : Nat → Option PoliMessage)
    (max_rounds r : Nat) (msg : PoliMessage)
    (hr : 0 < r) (hrm : r ≤ max_rounds)
    (hpre : ∀ k, 0 < k → k < r →
      ∃ m2, planner k = some m2 ∧ m2.type ≠ "complete" ∧ (executer k).isSome = true)
    (hp : planner r = some msg) (hc : msg.type = "complete") :
    ((route_continuous planner executer max_rounds).status = "completed" ∧
     (route_continuous planner executer max_rounds).summarySent = 1 ∧
     (route_continuous planner executer max_rounds).round = r ∧
     (route_continuous planner executer max_rounds).plannerPolls = r) ∧
    ∀ (mr : Nat) (inputs : List MonitorInput) (ms : MonitorState),
      (monitorRun mr inputs ms).summaryPrompts = ms.summaryPrompts := by
  constructor
  · unfold route_continuous
    have h := routeLoop_completes planner executer (r - 1) max_rounds
      { status := "active", round := 0, plannerPolls := 0, execInstrSent := 0
        summarySent := 0, statusLog := ["active"] } msg (by omega)
      (by
        intro k h1 h2
        have h1b : 0 < k := h1
        have h2b : k ≤ 0 + (r - 1) := h2
        exact hpre k h1b (by omega))
      (by
        show planner (0 + (r - 1) + 1) = some msg
        rw [show 0 + (r - 1) + 1 = r from by omega]
        exact hp)
      hc
    have h2 := h.2.1
    have h3 := h.2.2.1
    have h4 := h.2.2.2
    simp only at h2 h3 h4
    exact ⟨h.1, by omega, by omega, by omega⟩
  · intro mr inputs ms
    exact monitorRun_summaryPrompts mr inputs ms

/-- Planner script replying with a continue block in round 1 and a
complete block from round 2 on. -/
def planScript (k : Nat) : Option PoliMessage :=
  if k = 1 then
    some { toParty := "EXECUTER", type := "continue", id := "t1", body := "step 1" }
  else some msgCompleteT1

/-- Witness for the amended C9: the planner continues in round 1 and
completes in round 2 of continuous mode (one summary prompt, run stops at
round 2), and a concrete monitor run leaves the summary-prompt count
unchanged. -/
theorem C9_witness :
    (route_continuous planScript alwaysResult 5).summarySent = 1 ∧
    (route_continuous planScript alwaysResult 5).status = "completed" ∧
    (route_continuous planScript alwaysResult 5).round = 2 ∧
    (monitorRun 50
        [{ plannerMsg := some msgCompleteT1, freshId := "u1", execResult := none }]
        monitorInit).summaryPrompts = monitorInit.summaryPrompts :=
  ⟨(C9_amended_complete_handling planScript alwaysResult 5 2 msgCompleteT1 (by decide)
      (by decide)
      (by
        intro k hk0 hkr
        have hk : k = 1 := by omega
        subst hk
        exact ⟨_, rfl, by decide, rfl⟩)
      rfl rfl).1.2.1,
   (C9_amended_complete_handling planScript alwaysResult 5 2 msgCompleteT1 (by decide)
      (by decide)
      (by
        intro k hk0 hkr
        have hk : k = 1 := by omega
        subst hk
        exact ⟨_, rfl, by decide, rfl⟩)
      rfl rfl).1.1,
   (C9_amended_complete_handling planScript alwaysResult 5 2 msgCompleteT1 (by decide)
      (by decide)
      (by
        intro k hk0 hkr
        have hk : k = 1 := by omega
        subst hk
        exact ⟨_, rfl, by decide, rfl⟩)
      rfl rfl).1.2.2.1,
   (C9_amended_complete_handling planScript alwaysResult 5 2 msgCompleteT1 (by decide)
      (by decide)
      (by
        intro k hk0 hkr
        have hk : k = 1 := by omega
        subst hk
        exact ⟨_, rfl, by decide, rfl⟩)
      rfl rfl).2 50
      [{ plannerMsg := some msgCompleteT1, freshId := "u1", execResult := none }]
      monitorInit⟩

end PoliV3
